import Mathlib

/-
Shallow embedding of the frontend orchestration logic of the GitHub Issues
Integration app (src/frontend/src/App.tsx).  The React component state is
modelled as an explicit record, the `sessions` object (a JS object keyed by
issue number) as an association list, and each async handler as a pure state
transformer parameterised by the outcome of its fetch call.
-/

/-- Label shape from the `Issue` interface (App.tsx lines 17-26). -/
structure Label where
  name : String
  color : String
deriving DecidableEq

/-- The `Issue` interface (App.tsx lines 17-26). -/
structure Issue where
  number : Nat
  title : String
  body : String
  state : String
  html_url : String
  created_at : String
  updated_at : String
  labels : List Label
deriving DecidableEq

/-- The `Session` interface (App.tsx lines 28-37); optional TS fields become
`Option`. -/
structure Session where
  session_id : String
  status : String
  message : Option String
  session_url : Option String
  repo : Option String
  issue_number : Option Nat
  confidence_score : Option Int
  action_plan : Option String
deriving DecidableEq

/-- The `sessions` React state, `Record<number, Session>` (App.tsx line 46):
a JS object keyed by issue number, modelled as an association list of
entries.  The numeric enumeration order of JS objects is not modelled; only
the entry set and per-key lookup are. -/
abbrev SessionsMap := List (Nat × Session)

/-- Property access `sessions[n]`: the value stored under key `n`, if any. -/
def lookupSession : SessionsMap → Nat → Option Session
  | [], _ => none
  | e :: rest, n => if e.1 = n then some e.2 else lookupSession rest n

/-- Whether key `n` is present in the object. -/
def hasKey : SessionsMap → Nat → Bool
  | [], _ => false
  | e :: rest, n => e.1 == n || hasKey rest n

/-- Replace the value at every entry whose key is `n` (keys stay the same). -/
def replaceKey : SessionsMap → Nat → Session → SessionsMap
  | [], _, _ => []
  | e :: rest, n, s => (if e.1 = n then (n, s) else e) :: replaceKey rest n s

/-- The spread update `setSessions(prev => ({...prev, [n]: data}))` used by
`scopeIssue` (lines 119-122), `completeIssue` (lines 160-163) and
`checkSessionStatus` (lines 183-186): the entry for key `n` is set to `data`
and every other entry is kept. -/
def setSession (m : SessionsMap) (n : Nat) (s : Session) : SessionsMap :=
  if hasKey m n then replaceKey m n s else m ++ [(n, s)]

/-- The keys of the sessions object. -/
def sessionKeys (m : SessionsMap) : List Nat :=
  m.map Prod.fst

/-- The JS-object invariant: at most one entry per issue number. -/
def keysNodup (m : SessionsMap) : Prop :=
  (sessionKeys m).Nodup

theorem lookupSession_replaceKey_self (m : SessionsMap) (n : Nat) (s : Session)
    (h : hasKey m n = true) : lookupSession (replaceKey m n s) n = some s := by
  induction m with
  | nil => simp [hasKey] at h
  | cons e rest ih =>
    by_cases he : e.1 = n
    · simp [replaceKey, lookupSession, he]
    · simp [hasKey, he] at h
      simp [replaceKey, lookupSession, he, ih h]

theorem lookupSession_append_self (m : SessionsMap) (n : Nat) (s : Session)
    (h : hasKey m n = false) :
    lookupSession (m ++ [(n, s)]) n = some s := by
  induction m with
  | nil => simp [lookupSession]
  | cons e rest ih =>
    simp [hasKey] at h
    simp [lookupSession, h.1, ih h.2]

theorem lookupSession_setSession_self (m : SessionsMap) (n : Nat) (s : Session) :
    lookupSession (setSession m n s) n = some s := by
  unfold setSession
  by_cases h : hasKey m n = true
  · simp [h, lookupSession_replaceKey_self m n s h]
  · simp at h
    simp [h, lookupSession_append_self m n s h]

theorem lookupSession_replaceKey_other (m : SessionsMap) (n : Nat) (s : Session)
    (k : Nat) (hk : k ≠ n) :
    lookupSession (replaceKey m n s) k = lookupSession m k := by
  induction m with
  | nil => rfl
  | cons e rest ih =>
    by_cases he : e.1 = n
    · have h1 : ¬ (n = k) := fun h => hk h.symm
      have h2 : ¬ (e.1 = k) := by rw [he]; exact h1
      simp [replaceKey, lookupSession, he, h1, h2, ih]
    · simp [replaceKey, lookupSession, he, ih]

theorem lookupSession_append_other (m : SessionsMap) (n : Nat) (s : Session)
    (k : Nat) (hk : k ≠ n) :
    lookupSession (m ++ [(n, s)]) k = lookupSession m k := by
  induction m with
  | nil =>
    have : ¬ (n = k) := fun h => hk h.symm
    simp [lookupSession, this]
  | cons e rest ih =>
    by_cases he : e.1 = k
    · simp [lookupSession, he]
    · simp [lookupSession, he, ih]

theorem lookupSession_setSession_other (m : SessionsMap) (n : Nat) (s : Session)
    (k : Nat) (hk : k ≠ n) :
    lookupSession (setSession m n s) k = lookupSession m k := by
  unfold setSession
  by_cases h : hasKey m n = true
  · simp [h, lookupSession_replaceKey_other m n s k hk]
  · simp at h
    simp [h, lookupSession_append_other m n s k hk]

theorem sessionKeys_replaceKey (m : SessionsMap) (n : Nat) (s : Session) :
    sessionKeys (replaceKey m n s) = sessionKeys m := by
  induction m with
  | nil => rfl
  | cons e rest ih =>
    by_cases he : e.1 = n
    · simp [replaceKey, sessionKeys, he] at *
      exact ih
    · simp [replaceKey, sessionKeys, he] at *
      exact ih

theorem hasKey_false_not_mem (m : SessionsMap) (n : Nat)
    (h : hasKey m n = false) : n ∉ sessionKeys m := by
  induction m with
  | nil => simp [sessionKeys]
  | cons e rest ih =>
    simp [hasKey] at h
    unfold sessionKeys
    simp only [List.map_cons, List.mem_cons, not_or]
    refine ⟨fun hh => h.1 hh.symm, ?_⟩
    have := ih h.2
    simpa [sessionKeys] using this

theorem keysNodup_setSession (m : SessionsMap) (n : Nat) (s : Session)
    (h : keysNodup m) : keysNodup (setSession m n s) := by
  unfold setSession
  by_cases hk : hasKey m n = true
  · simpa [keysNodup, sessionKeys_replaceKey, hk] using h
  · simp at hk
    have hmem := hasKey_false_not_mem m n hk
    rw [if_neg (by simp [hk])]
    unfold keysNodup sessionKeys at *
    rw [List.map_append, List.nodup_append]
    refine ⟨h, List.nodup_singleton n, ?_⟩
    intro a ha hb
    simp at hb
    rw [hb] at ha
    exact hmem ha

theorem lookupSession_mem (m : SessionsMap) (n : Nat) (s : Session)
    (h : lookupSession m n = some s) : (n, s) ∈ m := by
  induction m with
  | nil => simp [lookupSession] at h
  | cons e rest ih =>
    by_cases he : e.1 = n
    · simp [lookupSession, he] at h
      have : e = (n, s) := by
        cases e
        simp_all
      rw [this]
      exact List.mem_cons_self (n, s) rest
    · simp [lookupSession, he] at h
      exact List.mem_cons_of_mem e (ih h)

theorem mem_lookupSession (m : SessionsMap) (n : Nat) (s : Session)
    (hm : keysNodup m) (h : (n, s) ∈ m) : lookupSession m n = some s := by
  induction m with
  | nil => simp at h
  | cons e rest ih =>
    have hm' : e.1 ∉ sessionKeys rest ∧ keysNodup rest := by
      simpa [keysNodup, sessionKeys, List.nodup_cons] using hm
    rcases List.mem_cons.mp h with h | h
    · simp [lookupSession, ← h]
    · by_cases he : e.1 = n
      · refine absurd ?_ hm'.1
        rw [he]
        unfold sessionKeys
        exact List.mem_map.mpr ⟨(n, s), h, rfl⟩
      · simpa [lookupSession, he] using ih hm'.2 h

/-- The React component state of `App` (App.tsx lines 39-49), restricted to
the fields the orchestration logic reads or writes.  Presentation-only state
(`expandedIssues`, `expandedActionPlans`) is omitted. -/
structure AppState where
  repo : String
  githubToken : String
  devinApiKey : String
  issues : List Issue
  loading : Bool
  error : String
  sessions : SessionsMap
  configured : Bool
deriving DecidableEq

/-- Outcome of one `fetch` call as the surrounding try/catch observes it:
`ok data` is a 2xx response with parsed JSON `data`; `httpError` is a
non-OK response (the handler then throws its own fixed `Error`); `thrown m`
is any other exception reaching the catch — `some msg` when the thrown value
is an `Error` carrying message `msg`, `none` when it is not an `Error`
(then the handler falls back to its default text). -/
inductive FetchOutcome (α : Type) where
  | ok (data : α)
  | httpError
  | thrown (msg : Option String)
deriving DecidableEq

/-- The `loadIssues` handler (App.tsx lines 63-89) as a state transformer:
the guard rejects an empty repo or token before any fetch; otherwise
`loading` ends false (the finally block), success stores the issue list,
clears the error and marks the app configured, and failure sets the error
banner from the thrown message. -/
def loadIssues (st : AppState) (outcome : FetchOutcome (List Issue)) : AppState :=
  if st.repo = "" ∨ st.githubToken = "" then
    { st with error := "Please enter repository and GitHub token" }
  else
    match outcome with
    | .ok data =>
        { st with loading := false, error := "", issues := data, configured := true }
    | .httpError =>
        { st with loading := false, error := "Failed to fetch issues" }
    | .thrown m =>
        { st with loading := false, error := m.getD "Failed to load issues" }

/-- The `scopeIssue` handler (App.tsx lines 91-128): guard on the Devin API
key, then on success store the response record under the issue number via
the spread update, on failure set the error banner. -/
def scopeIssue (st : AppState) (n : Nat) (outcome : FetchOutcome Session) : AppState :=
  if st.devinApiKey = "" then
    { st with error := "Please enter Devin API key" }
  else
    match outcome with
    | .ok data =>
        { st with loading := false, error := "",
                  sessions := setSession st.sessions n data }
    | .httpError =>
        { st with loading := false, error := "Failed to scope issue" }
    | .thrown m =>
        { st with loading := false, error := m.getD "Failed to scope issue" }

/-- The JSON body sent by `completeIssue` to POST /api/complete (App.tsx
lines 146-152).  `session_id : Option String` models presence of the JSON
field: `none` would be an absent field, `some v` a present field with
value `v`. -/
structure CompleteRequest where
  repo : String
  issue_number : Nat
  github_token : String
  devin_api_key : String
  session_id : Option String
deriving DecidableEq

/-- Line 140: `const sessionId = sessions[issueNumber]?.session_id || ""` —
the tracked session's id, or the empty string when no session is tracked
(or its id is itself empty, which `||` also maps to `""`). -/
def completeSessionId (m : SessionsMap) (n : Nat) : String :=
  match lookupSession m n with
  | some s => if s.session_id = "" then "" else s.session_id
  | none => ""

/-- The request `completeIssue` sends, if any: the guard at lines 131-134
returns early (no request) when no Devin API key is configured; otherwise
the body always includes the `session_id` field, set to `completeSessionId`. -/
def completeRequest (st : AppState) (n : Nat) : Option CompleteRequest :=
  if st.devinApiKey = "" then none
  else some { repo := st.repo
              issue_number := n
              github_token := st.githubToken
              devin_api_key := st.devinApiKey
              session_id := some (completeSessionId st.sessions n) }

/-- The state effect of the `completeIssue` handler (App.tsx lines 130-169):
mirrors `scopeIssue` with its own error texts. -/
def completeIssue (st : AppState) (n : Nat) (outcome : FetchOutcome Session) : AppState :=
  if st.devinApiKey = "" then
    { st with error := "Please enter Devin API key" }
  else
    match outcome with
    | .ok data =>
        { st with loading := false, error := "",
                  sessions := setSession st.sessions n data }
    | .httpError =>
        { st with loading := false, error := "Failed to complete issue" }
    | .thrown m =>
        { st with loading := false, error := m.getD "Failed to complete issue" }

/-- The `checkSessionStatus` callback (App.tsx lines 171-192): returns
immediately when no Devin API key is set; on success replaces the stored
record for the issue with the response; on any failure only
`console.error` runs — no state field changes, no error banner. -/
def checkSessionStatus (st : AppState) (n : Nat) (outcome : FetchOutcome Session) : AppState :=
  if st.devinApiKey = "" then st
  else
    match outcome with
    | .ok data => { st with sessions := setSession st.sessions n data }
    | .httpError => st
    | .thrown _ => st

/-- One status-refresh request issued by a poll tick, with the issue it was
issued for and the session id queried. -/
structure RefreshCall where
  issue_number : Nat
  session_id : String
deriving DecidableEq

/-- Line 199: `session.status === "scoping" || session.status === "implementing"`. -/
def isPolledStatus (s : String) : Bool :=
  s == "scoping" || s == "implementing"

/-- The set of status-refresh requests one tick of the polling interval
issues (App.tsx lines 194-206): nothing when no Devin API key is configured
(the effect installs no interval, and `checkSessionStatus` would return
early anyway); otherwise one `checkSessionStatus` call per tracked session
whose status is exactly "scoping" or "implementing". -/
def pollTick (devinApiKey : String) (m : SessionsMap) : List RefreshCall :=
  if devinApiKey = "" then []
  else m.filterMap fun e =>
    if isPolledStatus e.2.status then some ⟨e.1, e.2.session_id⟩ else none

/-- The Scope Issue button's disabled condition (App.tsx line 382):
`loading || !!session`. -/
def scopeButtonDisabled (st : AppState) (n : Nat) : Bool :=
  st.loading || (lookupSession st.sessions n).isSome

/-- The Complete Issue button's disabled condition (App.tsx line 389):
`loading || session?.status === "implementing"` (undefined compares false). -/
def completeButtonDisabled (st : AppState) (n : Nat) : Bool :=
  st.loading ||
    (match lookupSession st.sessions n with
     | some s => s.status == "implementing"
     | none => false)

/-- The browser localStorage slots the app touches, each `none` when the
key was never written. -/
structure StoredCredentials where
  github_repo : Option String
  github_token : Option String
  devin_api_key : Option String
deriving DecidableEq

/-- The initial component state (App.tsx lines 40-49): the three credential
fields come from `localStorage.getItem(k) || ""`, everything else starts
empty/false. -/
def initialAppState (ls : StoredCredentials) : AppState :=
  { repo := ls.github_repo.getD ""
    githubToken := ls.github_token.getD ""
    devinApiKey := ls.devin_api_key.getD ""
    issues := []
    loading := false
    error := ""
    sessions := []
    configured := false }

/-- One persistence effect (App.tsx lines 51-61): `if (v) setItem(k, v)` —
a non-empty current value is written to the slot, an empty one leaves the
slot untouched. -/
def persistCredential (slot : Option String) (current : String) : Option String :=
  if current = "" then slot else some current

/-- A concrete scope-session record, as returned by POST /api/scope. -/
def sessionScoping : Session :=
  { session_id := "devin-s1"
    status := "scoping"
    message := some "Session created"
    session_url := some "https://app.devin.ai/sessions/s1"
    repo := some "octo/demo"
    issue_number := some 1
    confidence_score := some 82
    action_plan := some "1. Fix the bug" }

/-- The same session after the agent finished. -/
def sessionFinished : Session :=
  { sessionScoping with status := "finished" }

/-- A concrete configured app state tracking one session for issue 1. -/
def exState : AppState :=
  { repo := "octo/demo"
    githubToken := "ghp-token"
    devinApiKey := "devin-key"
    issues := []
    loading := false
    error := ""
    sessions := [(1, sessionScoping)]
    configured := true }

theorem isPolledStatus_iff (s : String) :
    isPolledStatus s = true ↔ s = "scoping" ∨ s = "implementing" := by
  simp [isPolledStatus]

/-- Claim C1, counterexample: in a state tracking no session for issue 2,
the request `completeIssue` sends for issue 2 carries the `session_id`
field with value `""` — the field is present, not absent as the claim
states. -/
theorem completeRequest_sessionId_present_empty :
    lookupSession exState.sessions 2 = none ∧
    (completeRequest exState 2).map (fun r => r.session_id) = some (some "") ∧
    (completeRequest exState 2).map (fun r => r.session_id) ≠ some none := by
  decide

/-- Claim C1 (amended): when the complete action fires with a Devin API key
configured, the request body always contains the `session_id` field — equal
to the empty string when no session is tracked for the issue, and to
exactly the tracked session's id otherwise. -/
theorem completeRequest_session_id_spec (st : AppState) (n : Nat)
    (hk : st.devinApiKey ≠ "") :
    ∃ r, completeRequest st n = some r ∧
      (lookupSession st.sessions n = none → r.session_id = some "") ∧
      (∀ s, lookupSession st.sessions n = some s →
        r.session_id = some s.session_id) := by
  unfold completeRequest
  rw [if_neg hk]
  refine ⟨_, rfl, ?_, ?_⟩
  · intro h
    simp [completeSessionId, h]
  · intro s hs
    simp only [completeSessionId, hs]
    split <;> simp_all

/-- Witness for C1's amended theorem at the concrete tracking state. -/
theorem completeRequest_session_id_spec_witness :
    ∃ r, completeRequest exState 1 = some r ∧
      (lookupSession exState.sessions 1 = none → r.session_id = some "") ∧
      (∀ s, lookupSession exState.sessions 1 = some s →
        r.session_id = some s.session_id) :=
  completeRequest_session_id_spec exState 1 (by decide)

theorem pollTick_mem_iff (k : String) (hk : k ≠ "") (m : SessionsMap)
    (hm : keysNodup m) (n : Nat) :
    (∃ c ∈ pollTick k m, c.issue_number = n) ↔
      ∃ s, lookupSession m n = some s ∧ isPolledStatus s.status = true := by
  unfold pollTick
  rw [if_neg hk]
  constructor
  · rintro ⟨c, hc, hcn⟩
    obtain ⟨e, he, hfe⟩ := List.mem_filterMap.mp hc
    by_cases hp : isPolledStatus e.2.status = true
    · rw [if_pos hp] at hfe
      obtain rfl := Option.some.inj hfe
      refine ⟨e.2, ?_, hp⟩
      have hen : (n, e.2) ∈ m := by
        have : e = (n, e.2) := by
          cases e
          simp_all
        rw [← this]
        exact he
      exact mem_lookupSession m n e.2 hm hen
    · rw [if_neg hp] at hfe
      cases hfe
  · rintro ⟨s, hs, hp⟩
    refine ⟨⟨n, s.session_id⟩, ?_, rfl⟩
    exact List.mem_filterMap.mpr ⟨(n, s), lookupSession_mem m n s hs, by simp [hp]⟩

/-- Claim C2: with a Devin API key configured (the interval exists only
then), a poll tick issues a refresh for issue `n` iff the tracked record's
status is exactly "scoping" or "implementing"; and once a refresh stores a
record with status "finished" for `n`, no later tick issues a refresh for
`n`. -/
theorem pollTick_refresh_iff (k : String) (hk : k ≠ "") (m : SessionsMap)
    (hm : keysNodup m) (n : Nat) :
    ((∃ c ∈ pollTick k m, c.issue_number = n) ↔
      ∃ s, lookupSession m n = some s ∧
        (s.status = "scoping" ∨ s.status = "implementing")) ∧
    ∀ d : Session, d.status = "finished" →
      ∀ c ∈ pollTick k (setSession m n d), c.issue_number ≠ n := by
  constructor
  · rw [pollTick_mem_iff k hk m hm n]
    constructor
    · rintro ⟨s, hs, hp⟩
      exact ⟨s, hs, (isPolledStatus_iff s.status).mp hp⟩
    · rintro ⟨s, hs, hp⟩
      exact ⟨s, hs, (isPolledStatus_iff s.status).mpr hp⟩
  · intro d hd c hc hcn
    have hex : ∃ c ∈ pollTick k (setSession m n d), c.issue_number = n :=
      ⟨c, hc, hcn⟩
    rw [pollTick_mem_iff k hk _ (keysNodup_setSession m n d hm) n] at hex
    obtain ⟨s, hs, hp⟩ := hex
    rw [lookupSession_setSession_self] at hs
    obtain rfl := Option.some.inj hs
    rw [hd] at hp
    simp [isPolledStatus] at hp

/-- Witness for C2 at a one-session map whose record is in status
"scoping". -/
theorem pollTick_refresh_iff_witness :
    ∃ s, lookupSession [(1, sessionScoping)] 1 = some s ∧
      (s.status = "scoping" ∨ s.status = "implementing") :=
  (pollTick_refresh_iff "devin-key" (by decide) [(1, sessionScoping)]
      (by unfold keysNodup; decide) 1).1.mp ⟨⟨1, "devin-s1"⟩, by decide, rfl⟩

/-- Claim C3: with no Devin API key configured a poll tick issues no
status-refresh requests at all, whatever the sessions map holds; and as
soon as a non-empty key is supplied, a refresh is issued for every tracked
session in a non-terminal ("scoping"/"implementing") status. -/
theorem pollTick_no_credential (m : SessionsMap) :
    pollTick "" m = [] ∧
    ∀ k, k ≠ "" → ∀ n s, lookupSession m n = some s →
      (s.status = "scoping" ∨ s.status = "implementing") →
        (⟨n, s.session_id⟩ : RefreshCall) ∈ pollTick k m := by
  constructor
  · simp [pollTick]
  · intro k hk n s hs hp
    unfold pollTick
    rw [if_neg hk]
    refine List.mem_filterMap.mpr ⟨(n, s), lookupSession_mem m n s hs, ?_⟩
    simp [(isPolledStatus_iff s.status).mpr hp]

/-- Witness for C3: the empty-key tick on a non-terminal session issues
nothing, while the configured tick refreshes it. -/
theorem pollTick_no_credential_witness :
    pollTick "" [(1, sessionScoping)] = [] ∧
    (⟨1, "devin-s1"⟩ : RefreshCall) ∈ pollTick "devin-key" [(1, sessionScoping)] :=
  ⟨(pollTick_no_credential [(1, sessionScoping)]).1,
   (pollTick_no_credential [(1, sessionScoping)]).2 "devin-key" (by decide)
     1 sessionScoping (by decide) (Or.inl rfl)⟩

/-- Claim C4: a failed status refresh (non-OK response or thrown fetch
error) leaves the sessions map — the targeted issue's record and every
other issue's record — exactly as it was. -/
theorem checkSessionStatus_failure_preserves (st : AppState) (n : Nat)
    (o : FetchOutcome Session) (ho : ∀ d, o ≠ .ok d) :
    (checkSessionStatus st n o).sessions = st.sessions ∧
    ∀ k, lookupSession (checkSessionStatus st n o).sessions k =
      lookupSession st.sessions k := by
  have h : checkSessionStatus st n o = st := by
    cases o with
    | ok a => exact absurd rfl (ho a)
    | httpError =>
      unfold checkSessionStatus
      split <;> rfl
    | thrown m =>
      unfold checkSessionStatus
      split <;> rfl
  rw [h]
  exact ⟨rfl, fun _ => rfl⟩

/-- Witness for C4 at a concrete failing refresh. -/
theorem checkSessionStatus_failure_preserves_witness :
    (checkSessionStatus exState 1 .httpError).sessions = exState.sessions ∧
    ∀ k, lookupSession (checkSessionStatus exState 1 .httpError).sessions k =
      lookupSession exState.sessions k :=
  checkSessionStatus_failure_preserves exState 1 .httpError
    (fun _ h => FetchOutcome.noConfusion h)

/-- Claim C5, counterexample: a concrete fetch failure inside
`checkSessionStatus` (an `Error` reaching its catch) sets no error banner —
the state, error field included, is completely unchanged — even though a
Devin API key is configured and the banner was empty. -/
theorem checkSessionStatus_failure_no_banner :
    exState.devinApiKey ≠ "" ∧ exState.error = "" ∧
    checkSessionStatus exState 1 (.thrown (some "NetworkError")) = exState ∧
    (checkSessionStatus exState 1 (.thrown (some "NetworkError"))).error = "" := by
  decide

theorem getD_ne_empty (m : Option String) (d : String)
    (hm : m ≠ some "") (hd : d ≠ "") : m.getD d ≠ "" := by
  cases m with
  | none => simpa using hd
  | some s =>
    simp only [Option.getD_some]
    intro h
    exact hm (by rw [h])

/-- Claim C5 (amended): fetch failures in `loadIssues`, `scopeIssue` and
`completeIssue` set a non-empty, human-readable error banner (when the
thrown error's message, if it is an `Error`, is non-empty) and leave the
issue list and the sessions map untouched; a fetch failure in
`checkSessionStatus` sets no banner — it is only logged to the console —
and leaves the whole state unchanged.  Hence no failure path clears the
issue list or any session record. -/
theorem fetch_failures_banner_and_preserve (st : AppState) (n : Nat)
    (m : Option String) (hm : m ≠ some "") :
    ((loadIssues st .httpError).error ≠ "" ∧
     (loadIssues st .httpError).issues = st.issues ∧
     (loadIssues st .httpError).sessions = st.sessions) ∧
    ((loadIssues st (.thrown m)).error ≠ "" ∧
     (loadIssues st (.thrown m)).issues = st.issues ∧
     (loadIssues st (.thrown m)).sessions = st.sessions) ∧
    ((scopeIssue st n .httpError).error ≠ "" ∧
     (scopeIssue st n .httpError).issues = st.issues ∧
     (scopeIssue st n .httpError).sessions = st.sessions) ∧
    ((scopeIssue st n (.thrown m)).error ≠ "" ∧
     (scopeIssue st n (.thrown m)).issues = st.issues ∧
     (scopeIssue st n (.thrown m)).sessions = st.sessions) ∧
    ((completeIssue st n .httpError).error ≠ "" ∧
     (completeIssue st n .httpError).issues = st.issues ∧
     (completeIssue st n .httpError).sessions = st.sessions) ∧
    ((completeIssue st n (.thrown m)).error ≠ "" ∧
     (completeIssue st n (.thrown m)).issues = st.issues ∧
     (completeIssue st n (.thrown m)).sessions = st.sessions) ∧
    checkSessionStatus st n .httpError = st ∧
    checkSessionStatus st n (.thrown m) = st := by
  refine ⟨?_, ?_, ?_, ?_, ?_, ?_, ?_, ?_⟩
  · unfold loadIssues
    split
    · exact ⟨show ("Please enter repository and GitHub token" : String) ≠ "" by decide, rfl, rfl⟩
    · exact ⟨show ("Failed to fetch issues" : String) ≠ "" by decide, rfl, rfl⟩
  · unfold loadIssues
    split
    · exact ⟨show ("Please enter repository and GitHub token" : String) ≠ "" by decide, rfl, rfl⟩
    · exact ⟨getD_ne_empty m _ hm (by decide), rfl, rfl⟩
  · unfold scopeIssue
    split
    · exact ⟨show ("Please enter Devin API key" : String) ≠ "" by decide, rfl, rfl⟩
    · exact ⟨show ("Failed to scope issue" : String) ≠ "" by decide, rfl, rfl⟩
  · unfold scopeIssue
    split
    · exact ⟨show ("Please enter Devin API key" : String) ≠ "" by decide, rfl, rfl⟩
    · exact ⟨getD_ne_empty m _ hm (by decide), rfl, rfl⟩
  · unfold completeIssue
    split
    · exact ⟨show ("Please enter Devin API key" : String) ≠ "" by decide, rfl, rfl⟩
    · exact ⟨show ("Failed to complete issue" : String) ≠ "" by decide, rfl, rfl⟩
  · unfold completeIssue
    split
    · exact ⟨show ("Please enter Devin API key" : String) ≠ "" by decide, rfl, rfl⟩
    · exact ⟨getD_ne_empty m _ hm (by decide), rfl, rfl⟩
  · unfold checkSessionStatus
    split <;> rfl
  · unfold checkSessionStatus
    split <;> rfl

/-- Witness for C5's amended theorem at a concrete state and error. -/
theorem fetch_failures_banner_and_preserve_witness :
    (loadIssues exState .httpError).error ≠ "" ∧
    (scopeIssue exState 1 (.thrown (some "boom"))).sessions = exState.sessions ∧
    checkSessionStatus exState 1 (.thrown (some "boom")) = exState :=
  ⟨(fetch_failures_banner_and_preserve exState 1 (some "boom") (by decide)).1.1,
   (fetch_failures_banner_and_preserve exState 1 (some "boom")
      (by decide)).2.2.2.1.2.2,
   (fetch_failures_banner_and_preserve exState 1 (some "boom")
      (by decide)).2.2.2.2.2.2.2⟩

/-- Claim C6: every successful scope, complete or refresh response
overwrites exactly the entry for the targeted issue number, leaves every
other issue's entry unchanged, and preserves the at-most-one-record-per-
issue invariant, which holds of the initial (empty) sessions map. -/
theorem sessions_one_record_per_issue (st : AppState) (n : Nat) (d : Session)
    (ls : StoredCredentials) (hk : st.devinApiKey ≠ "") (hm : keysNodup st.sessions) :
    (lookupSession (scopeIssue st n (.ok d)).sessions n = some d ∧
     (∀ k, k ≠ n → lookupSession (scopeIssue st n (.ok d)).sessions k =
        lookupSession st.sessions k) ∧
     keysNodup (scopeIssue st n (.ok d)).sessions) ∧
    (lookupSession (completeIssue st n (.ok d)).sessions n = some d ∧
     (∀ k, k ≠ n → lookupSession (completeIssue st n (.ok d)).sessions k =
        lookupSession st.sessions k) ∧
     keysNodup (completeIssue st n (.ok d)).sessions) ∧
    (lookupSession (checkSessionStatus st n (.ok d)).sessions n = some d ∧
     (∀ k, k ≠ n → lookupSession (checkSessionStatus st n (.ok d)).sessions k =
        lookupSession st.sessions k) ∧
     keysNodup (checkSessionStatus st n (.ok d)).sessions) ∧
    keysNodup (initialAppState ls).sessions := by
  have h1 : (scopeIssue st n (.ok d)).sessions = setSession st.sessions n d := by
    unfold scopeIssue
    rw [if_neg hk]
  have h2 : (completeIssue st n (.ok d)).sessions = setSession st.sessions n d := by
    unfold completeIssue
    rw [if_neg hk]
  have h3 : (checkSessionStatus st n (.ok d)).sessions = setSession st.sessions n d := by
    unfold checkSessionStatus
    rw [if_neg hk]
  rw [h1, h2, h3]
  refine ⟨⟨?_, ?_, ?_⟩, ⟨?_, ?_, ?_⟩, ⟨?_, ?_, ?_⟩, ?_⟩
  · exact lookupSession_setSession_self st.sessions n d
  · exact fun k hkn => lookupSession_setSession_other st.sessions n d k hkn
  · exact keysNodup_setSession st.sessions n d hm
  · exact lookupSession_setSession_self st.sessions n d
  · exact fun k hkn => lookupSession_setSession_other st.sessions n d k hkn
  · exact keysNodup_setSession st.sessions n d hm
  · exact lookupSession_setSession_self st.sessions n d
  · exact fun k hkn => lookupSession_setSession_other st.sessions n d k hkn
  · exact keysNodup_setSession st.sessions n d hm
  · simp [initialAppState, keysNodup, sessionKeys]

/-- Witness for C6 at a concrete overwrite of issue 1's record. -/
theorem sessions_one_record_per_issue_witness :
    lookupSession (scopeIssue exState 1 (.ok sessionFinished)).sessions 1 =
      some sessionFinished ∧
    keysNodup (checkSessionStatus exState 1 (.ok sessionFinished)).sessions :=
  ⟨(sessions_one_record_per_issue exState 1 sessionFinished
      ⟨none, none, none⟩ (by decide) (by unfold keysNodup; decide)).1.1,
   (sessions_one_record_per_issue exState 1 sessionFinished
      ⟨none, none, none⟩ (by decide) (by unfold keysNodup; decide)).2.2.1.2.2⟩

/-- Claim C7: a status refresh replaces the stored record wholesale with the
response payload: when the response equals the stored record (no delta),
every optional field round-trips unchanged; and whatever record the
response carries becomes the stored record verbatim, so optional fields
omitted from the response (`none`) are dropped from the stored record. -/
theorem refresh_roundtrip (st : AppState) (n : Nat) (s : Session)
    (hk : st.devinApiKey ≠ "") (_hs : lookupSession st.sessions n = some s) :
    lookupSession (checkSessionStatus st n (.ok s)).sessions n = some s ∧
    (∀ d, lookupSession (checkSessionStatus st n (.ok d)).sessions n = some d) ∧
    (∀ d : Session, d.confidence_score = none → d.action_plan = none →
      d.message = none →
        ∃ r, lookupSession (checkSessionStatus st n (.ok d)).sessions n = some r ∧
          r.confidence_score = none ∧ r.action_plan = none ∧ r.message = none) := by
  have key : ∀ d : Session,
      (checkSessionStatus st n (.ok d)).sessions = setSession st.sessions n d := by
    intro d
    unfold checkSessionStatus
    rw [if_neg hk]
  refine ⟨?_, ?_, ?_⟩
  · rw [key s]
    exact lookupSession_setSession_self st.sessions n s
  · intro d
    rw [key d]
    exact lookupSession_setSession_self st.sessions n d
  · intro d hc ha hmsg
    refine ⟨d, ?_, hc, ha, hmsg⟩
    rw [key d]
    exact lookupSession_setSession_self st.sessions n d

/-- Witness for C7: the no-delta refresh of issue 1's record returns it
unchanged. -/
theorem refresh_roundtrip_witness :
    lookupSession (checkSessionStatus exState 1 (.ok sessionScoping)).sessions 1 =
      some sessionScoping :=
  (refresh_roundtrip exState 1 sessionScoping (by decide) (by decide)).1

/-- Claim C8: the Scope Issue button is enabled exactly when no request is
in flight and no session record of any status exists for the issue; any
tracked record, whatever its status, disables it. -/
theorem scope_button_disabled_iff (st : AppState) (n : Nat) :
    (scopeButtonDisabled st n = false ↔
      st.loading = false ∧ lookupSession st.sessions n = none) ∧
    ∀ s, lookupSession st.sessions n = some s →
      scopeButtonDisabled st n = true := by
  unfold scopeButtonDisabled
  constructor
  · cases h : lookupSession st.sessions n <;> cases hl : st.loading <;> simp [h, hl]
  · intro s hs
    simp [hs]

/-- Witness for C8: issue 1 has a record, so its scope button is disabled;
issue 2 has none and nothing is loading, so its scope button is enabled. -/
theorem scope_button_disabled_iff_witness :
    scopeButtonDisabled exState 1 = true ∧ scopeButtonDisabled exState 2 = false :=
  ⟨(scope_button_disabled_iff exState 1).2 sessionScoping (by decide),
   (scope_button_disabled_iff exState 2).1.mpr ⟨rfl, by decide⟩⟩

/-- Claim C9: the Complete Issue button is disabled exactly while a request
is in flight or the tracked session's status is exactly "implementing"; for
any tracked session with another status it stays invocable and the request
it sends carries that session's id. -/
theorem complete_button_enabled_spec (st : AppState) (n : Nat) :
    (completeButtonDisabled st n = true ↔
      (st.loading = true ∨
        ∃ s, lookupSession st.sessions n = some s ∧ s.status = "implementing")) ∧
    ∀ s, lookupSession st.sessions n = some s → s.status ≠ "implementing" →
      st.loading = false →
        completeButtonDisabled st n = false ∧
        (st.devinApiKey ≠ "" →
          ∃ r, completeRequest st n = some r ∧
            r.session_id = some s.session_id) := by
  constructor
  · unfold completeButtonDisabled
    cases h : lookupSession st.sessions n <;> cases hl : st.loading <;> simp [h, hl]
  · intro s hs hst hl
    constructor
    · unfold completeButtonDisabled
      simp [hs, hl, hst]
    · intro hk
      unfold completeRequest
      rw [if_neg hk]
      refine ⟨_, rfl, ?_⟩
      simp only [completeSessionId, hs]
      split <;> simp_all

/-- Witness for C9: issue 1's session is in status "scoping", so complete
stays enabled and the request carries its session id. -/
theorem complete_button_enabled_spec_witness :
    completeButtonDisabled exState 1 = false ∧
    (∃ r, completeRequest exState 1 = some r ∧
      r.session_id = some sessionScoping.session_id) :=
  ⟨((complete_button_enabled_spec exState 1).2 sessionScoping (by decide)
      (by decide) rfl).1,
   ((complete_button_enabled_spec exState 1).2 sessionScoping (by decide)
      (by decide) rfl).2 (by decide)⟩

/-- Claim C10: the three credential fields initialize from their
localStorage slots (empty string when a slot is unset), a change to a
non-empty value is written back to the slot, and clearing a field writes
nothing — so after setting then clearing, the slot still holds the last
non-empty value. -/
theorem credential_storage_roundtrip (ls : StoredCredentials)
    (slot : Option String) (v : String) :
    (∀ s, ls.github_repo = some s → (initialAppState ls).repo = s) ∧
    (ls.github_repo = none → (initialAppState ls).repo = "") ∧
    (∀ s, ls.github_token = some s → (initialAppState ls).githubToken = s) ∧
    (ls.github_token = none → (initialAppState ls).githubToken = "") ∧
    (∀ s, ls.devin_api_key = some s → (initialAppState ls).devinApiKey = s) ∧
    (ls.devin_api_key = none → (initialAppState ls).devinApiKey = "") ∧
    (v ≠ "" → persistCredential slot v = some v) ∧
    persistCredential slot "" = slot ∧
    (v ≠ "" → persistCredential (persistCredential slot v) "" = some v) := by
  refine ⟨?_, ?_, ?_, ?_, ?_, ?_, ?_, ?_, ?_⟩
  · intro s h
    simp [initialAppState, h]
  · intro h
    simp [initialAppState, h]
  · intro s h
    simp [initialAppState, h]
  · intro h
    simp [initialAppState, h]
  · intro s h
    simp [initialAppState, h]
  · intro h
    simp [initialAppState, h]
  · intro hv
    simp [persistCredential, hv]
  · simp [persistCredential]
  · intro hv
    simp [persistCredential, hv]

/-- Witness for C10 at concrete storage contents. -/
theorem credential_storage_roundtrip_witness :
    (initialAppState ⟨some "octo/demo", none, some "devin-key"⟩).repo = "octo/demo" ∧
    (initialAppState ⟨some "octo/demo", none, some "devin-key"⟩).githubToken = "" ∧
    persistCredential (persistCredential (some "old") "new") "" = some "new" :=
  ⟨(credential_storage_roundtrip ⟨some "octo/demo", none, some "devin-key"⟩
      (some "old") "new").1 "octo/demo" rfl,
   (credential_storage_roundtrip ⟨some "octo/demo", none, some "devin-key"⟩
      (some "old") "new").2.2.2.1 rfl,
   (credential_storage_roundtrip ⟨some "octo/demo", none, some "devin-key"⟩
      (some "old") "new").2.2.2.2.2.2.2.2 (by decide)⟩
